import Mathlib

/-!
Verification of the MDSA SNN comparison pipeline.

Shallow embedding of the core of the `snn-algo-compare` repository:
graphs are association lists from node names to attribute records,
Python exceptions are modelled with `Except String`, Python floats with `ℚ`,
Python ints with `ℤ`.  Functions whose source module is absent from the
repository snapshot (the MDSA compiler, the redundancy mechanism, the
Alipour reference algorithm, the structural verifiers and the simulator
entry point) are either taken as parameters or modelled from the spec,
as stated in their doc comments.
-/

/-- Attribute record of one node of an SNN graph
(`networkx` node attribute dict restricted to the fields the core reads).
`u` models the final current `nodes[name]["nx_LIF"].u.get()`;
`u = none` models a node without an `nx_LIF` neuron object. -/
structure NodeAttrs where
  bias : Option ℚ := Option.none
  du : Option ℚ := Option.none
  dv : Option ℚ := Option.none
  vth : Option ℚ := Option.none
  u : Option ℚ := Option.none
  v : Option ℚ := Option.none
  spikes : Option Bool := Option.none
  rad_death : Option Bool := Option.none
deriving DecidableEq

/-- An SNN graph's node set: association list from node name to attributes
(models `G.nodes` with its attribute dicts; names are unique in a
`networkx` graph). -/
abbrev SnnGraph := List (String × NodeAttrs)

/-- `snn_graph.nodes[name]`, `none` when the node is absent (Python `KeyError`). -/
def lookupNode (g : SnnGraph) (name : String) : Option NodeAttrs :=
  (g.find? (fun p => p.1 == name)).map (fun p => p.2)

/-- True exactly on `Except.error`. -/
def isErr {α : Type} (e : Except String α) : Bool :=
  match e with
  | .error _ => true
  | .ok _ => false

/-- `graph_has_dead_neurons` from `src/process_results/get_mdsa_results.py`:
scans all nodes for a `rad_death` key; if found on some node, raises unless
it is present on every node, else returns whether it was found at all. -/
def graph_has_dead_neurons (snn_graph : SnnGraph) : Except String Bool :=
  let rad_death_found := snn_graph.any (fun p => p.2.rad_death.isSome)
  if rad_death_found then
    if snn_graph.all (fun p => p.2.rad_death.isSome) then
      .ok true
    else
      .error ("Error, rad_death key not set in all nodes of graph, yet it was set for at least one node in graph")
  else
    .ok false

/-- `counter_neuron_died` from `src/process_results/get_mdsa_results.py`:
if the graph has dead neurons, reads the node's `rad_death` flag
(`KeyError` if the node or the key is absent), else returns `False`. -/
def counter_neuron_died (snn_graph : SnnGraph) (counter_neuron_name : String) : Except String Bool :=
  match graph_has_dead_neurons snn_graph with
  | .error e => .error e
  | .ok hd =>
    if hd then
      match lookupNode snn_graph counter_neuron_name with
      | Option.none => .error ("KeyError: " ++ counter_neuron_name)
      | Option.some a =>
        match a.rad_death with
        | Option.none => .error ("KeyError: rad_death")
        | Option.some b => .ok b
    else
      .ok false

/-- The Python f-string `f"counter_{node_index}_{m_val}"`. -/
def counterName (node_index : ℕ) (m_val : ℤ) : String :=
  "counter_" ++ toString node_index ++ "_" ++ toString m_val

/-- `nx_SNN_G.nodes[name]["nx_LIF"].u.get()`: the final current of the
named neuron, `KeyError` when node or neuron object is missing. -/
def readCount (g : SnnGraph) (name : String) : Except String ℚ :=
  match lookupNode g name with
  | Option.none => .error ("KeyError: " ++ name)
  | Option.some a =>
    match a.u with
    | Option.none => .error ("KeyError: nx_LIF")
    | Option.some q => .ok q

/-- Body of the loop of `get_nx_LIF_count_without_redundancy`
(one `node_index`): reads the primary counter neuron's current. -/
def readout_one_plain (g : SnnGraph) (m_val : ℤ) (node_index : ℕ) : Except String (String × ℚ) :=
  match readCount g (counterName node_index m_val) with
  | .error e => .error e
  | .ok q => .ok (counterName node_index m_val, q)

/-- Body of the loop of `get_nx_LIF_count_with_redundancy`
(one `node_index`): checks whether the primary counter neuron died and
prepends `red_` to the read-out name if so. -/
def readout_one_red (g : SnnGraph) (m_val : ℤ) (node_index : ℕ) : Except String (String × ℚ) :=
  match counter_neuron_died g (counterName node_index m_val) with
  | .error e => .error e
  | .ok died =>
    let pfx := if died then "red_" else ""
    match readCount g (pfx ++ counterName node_index m_val) with
    | .error e => .error e
    | .ok q => .ok (counterName node_index m_val, q)

/-- `for node_index in range(0, n): node_counts[...] = body(node_index)`:
builds the count dict (modelled as an insertion-ordered association list). -/
def countLoop (body : ℕ → Except String (String × ℚ)) : ℕ → Except String (List (String × ℚ))
  | 0 => .ok []
  | n + 1 =>
    match countLoop body n with
    | .error e => .error e
    | .ok l =>
      match body n with
      | .error e => .error e
      | .ok p => .ok (l ++ [p])

/-- `get_nx_LIF_count_without_redundancy` from
`src/process_results/get_mdsa_results.py`; `n` is `len(input_graph)`. -/
def get_nx_LIF_count_without_redundancy (n : ℕ) (nx_SNN_G : SnnGraph) (m_val : ℤ) :
    Except String (List (String × ℚ)) :=
  countLoop (readout_one_plain nx_SNN_G m_val) n

/-- `get_nx_LIF_count_with_redundancy` from
`src/process_results/get_mdsa_results.py`; `n` is `len(input_graph)`. -/
def get_nx_LIF_count_with_redundancy (n : ℕ) (adapted_nx_snn_graph : SnnGraph) (m_val : ℤ) :
    Except String (List (String × ℚ)) :=
  countLoop (readout_one_red adapted_nx_snn_graph m_val) n

/-- First-occurrence lookup in a count dict (Python `d[k]` / key membership). -/
def lookupD (l : List (String × ℚ)) (k : String) : Option ℚ :=
  (l.find? (fun p => p.1 == k)).map (fun p => p.2)

/-- Python `==` on two dicts with string keys and numeric values:
same key set and equal value at every key (for lists with unique keys). -/
def dictBeq (a b : List (String × ℚ)) : Bool :=
  a.all (fun p => lookupD b p.1 == Option.some p.2) &&
    b.all (fun p => lookupD a p.1 == Option.some p.2)

/-- The dict returned by `get_snn_results`: the counter marks plus the
`"passed"` key (whose value is a bool, kept as a separate field since the
counter names all start with `counter_` and never collide with it). -/
structure SnnResult where
  counts : List (String × ℚ)
  passed : Bool
deriving DecidableEq

/-- `get_snn_results` from `src/process_results/get_mdsa_results.py`:
reads the counter marks (with or without redundancy fallback), then sets
`passed` to the Python equality of the Alipour dict and the marks dict.
`n` is `len(input_graph)`. -/
def get_snn_results (alipour_counter_marks : List (String × ℚ)) (n : ℕ) (m_val : ℤ)
    (redundant : Bool) (snn_graph : SnnGraph) : Except String SnnResult :=
  match
    (if redundant then get_nx_LIF_count_with_redundancy n snn_graph m_val
     else get_nx_LIF_count_without_redundancy n snn_graph m_val) with
  | .error e => .error e
  | .ok snn_counter_marks =>
    .ok { counts := snn_counter_marks,
          passed := dictBeq alipour_counter_marks snn_counter_marks }

/-- The `rad_death` graph-wide consistency invariant of the spec (§3):
present on every node or absent from every node. -/
def radConsistent (g : SnnGraph) : Prop :=
  (∀ p ∈ g, p.2.rad_death.isSome = true) ∨ (∀ p ∈ g, p.2.rad_death = Option.none)

instance (g : SnnGraph) : Decidable (radConsistent g) := by
  unfold radConsistent
  exact inferInstance

/-- A Python value as it occurs in run-configuration settings
(`isinstance` checks distinguish these; a Python `bool` is an instance of
`int` but not of `float`). -/
inductive PySetting where
  | pyFloat (q : ℚ)
  | pyInt (n : ℤ)
  | pyBool (b : Bool)
  | pyNone
  | pyStr (s : String)
deriving DecidableEq

/-- `copy.deepcopy` on a graph: a fresh object with the same value; the
point of the call in the source is that later in-place mutation of the
copy cannot reach the caller's object, which the embedding captures by
applying the adaptation only to the copy. -/
def deepcopy (g : SnnGraph) : SnnGraph := g

/-- `get_redundant_graph` from
`src/graph_generation/stage_1_get_input_graphs.py`.
`implement_adaptation_mechanism` (module `src.graph_generation.adaptation.redundancy`,
absent from the snapshot) mutates the deep copy in place; it is taken as
the parameter `adapt`.  The result pairs the returned adaptation graph
with the caller's graph as it stands after the call. -/
def get_redundant_graph (adapt : SnnGraph → SnnGraph) (snn_algo_graph : SnnGraph)
    (red_lev : ℚ) : Except String (SnnGraph × SnnGraph) :=
  if red_lev = 0 then
    .error ("Redundancy level 0 not supported if adaptation is required.")
  else if red_lev = 1 then
    .ok (adapt (deepcopy snn_algo_graph), snn_algo_graph)
  else
    .error ("Error, redundancy level above 1 is currently not supported.")

/-- `get_adapted_graph` from
`src/graph_generation/stage_1_get_input_graphs.py`: iterates over the
`adaptation` dict (keys may be Python `None`); every branch of the loop
body raises or returns, so only the first item is ever processed, and an
empty dict falls off the loop returning Python `None` (modelled `none`). -/
def get_adapted_graph (adapt : SnnGraph → SnnGraph) (snn_algo_graph : SnnGraph)
    (adaptation : List (Option String × PySetting)) :
    Except String (Option (SnnGraph × SnnGraph)) :=
  match adaptation with
  | [] => .ok Option.none
  | (adapatation_name, adaptation_setting) :: _ =>
    if adapatation_name = Option.none then
      .error ("Error, if no adaptation is selected, this method should not be reached.")
    else if adapatation_name = Option.some "redundancy" then
      match adaptation_setting with
      | PySetting.pyFloat q =>
        match get_redundant_graph adapt snn_algo_graph q with
        | .error e => .error e
        | .ok r => .ok (Option.some r)
      | _ => .error ("Error, adaptation_setting is not a float.")
    else
      .error ("Error, adapatation_name is not supported.")

/-- Loop body of `get_snn_algo_graph`: one `(algo_name, algo_settings)`
item.  `algo_settings` is modelled by its `m_val` entry; `specify` stands
for `specify_mdsa_network_properties` (module
`src.graph_generation.adaptation.mdsa_snn_algo`, absent from the
snapshot).  A Python `bool` passes the `isinstance(.., int)` check with
value 1 or 0. -/
def algoStep {G : Type} (specify : ℤ → G) (_acc : Option G) (p : String × PySetting) :
    Except String (Option G) :=
  if p.1 = "MDSA" then
    match p.2 with
    | PySetting.pyInt mv => .ok (Option.some (specify mv))
    | PySetting.pyBool b => .ok (Option.some (specify (if b then 1 else 0)))
    | _ => .error ("Error, m_val setting is not of type int.")
  else
    .error ("Error, algo_name:{algo_name} is not (yet) supported.")

/-- The `for algo_name, algo_settings in run_config["algorithm"].items()` loop
of `get_snn_algo_graph`, threading the local variable `snn_algo_graph`
(unbound before the first successful iteration). -/
def algoLoop {G : Type} (specify : ℤ → G) (acc : Option G) :
    List (String × PySetting) → Except String (Option G)
  | [] => .ok acc
  | p :: rest =>
    match algoStep specify acc p with
    | .error e => .error e
    | .ok acc' => algoLoop specify acc' rest

/-- `get_snn_algo_graph` from
`src/graph_generation/stage_1_get_input_graphs.py`: runs the algorithm
loop and returns the local `snn_algo_graph`; if the loop never bound it
(empty dict), Python raises a `NameError` at the `return`. -/
def get_snn_algo_graph {G : Type} (specify : ℤ → G)
    (algorithm : List (String × PySetting)) : Except String G :=
  match algoLoop specify Option.none algorithm with
  | .error e => .error e
  | .ok (Option.some g) => .ok g
  | .ok Option.none => .error ("NameError: name snn_algo_graph is not defined")

/-- A value of the `stage_2_graphs` dict: a single graph or a list of
per-timestep graphs. -/
inductive GVal where
  | single (g : SnnGraph)
  | glist (gs : List SnnGraph)

/-- Which result key and `redundant` flag `get_mdsa_snn_results` uses for
a given `stage_2_graphs` key (the four `elif` branches), `none` for keys
that produce no result entry. -/
def resultKey (name : String) : Option (String × Bool) :=
  if name = "snn_algo_graph" then Option.some ("snn_algo_result", false)
  else if name = "adapted_snn_graph" then Option.some ("adapted_snn_algo_result", true)
  else if name = "rad_snn_algo_graph" then Option.some ("rad_snn_algo_graph", false)
  else if name = "rad_adapted_snn_graph" then Option.some ("rad_adapted_snn_graph", true)
  else Option.none

/-- `latest_snn_graph = graph[-1]`, executed only when the value is a
list; a non-list value leaves the previous binding in place, and `[-1]`
on an empty list raises `IndexError`. -/
def updateLatest (latest : Option SnnGraph) : GVal → Except String (Option SnnGraph)
  | GVal.single _ => .ok latest
  | GVal.glist gs =>
    match gs.getLast? with
    | Option.some g => .ok (Option.some g)
    | Option.none => .error ("IndexError: list index out of range")

/-- The `for graph_name, graph in stage_2_graphs.items()` loop of
`get_mdsa_snn_results`: threads the (possibly unbound) local
`latest_snn_graph` and the `results` dict; referencing the unbound local
raises `NameError`. `n` is `len(stage_2_graphs["input_graph"])`. -/
def mdsaLoop (alipour_counter_marks : List (String × ℚ)) (n : ℕ) (m_val : ℤ)
    (latest : Option SnnGraph) (results : List (String × SnnResult)) :
    List (String × GVal) → Except String (List (String × SnnResult))
  | [] => .ok results
  | (graph_name, gv) :: rest =>
    match updateLatest latest gv with
    | .error e => .error e
    | .ok latest' =>
      match resultKey graph_name with
      | Option.none => mdsaLoop alipour_counter_marks n m_val latest' results rest
      | Option.some (rk, red) =>
        match latest' with
        | Option.none => .error ("NameError: name latest_snn_graph is not defined")
        | Option.some g =>
          match get_snn_results alipour_counter_marks n m_val red g with
          | .error e => .error e
          | .ok r => mdsaLoop alipour_counter_marks n m_val latest' (results ++ [(rk, r)]) rest

/-- `get_mdsa_snn_results` from `src/process_results/get_mdsa_results.py`.
The Alipour counter marks (computed by `get_alipour_nodes`, module absent
from the snapshot) are passed in; `n` is the input graph's node count. -/
def get_mdsa_snn_results (alipour_counter_marks : List (String × ℚ)) (n : ℕ) (m_val : ℤ)
    (stage_2_graphs : List (String × GVal)) : Except String (List (String × SnnResult)) :=
  mdsaLoop alipour_counter_marks n m_val Option.none [] stage_2_graphs

/-- A Python attribute value on an edge (weights must be numeric;
anything else is mistyped). -/
inductive AttrVal where
  | num (q : ℚ)
  | boolV (b : Bool)
  | strV (s : String)
deriving DecidableEq

/-- A directed edge of an SNN graph with its (possibly missing or
mistyped) `weight` attribute. -/
structure Edge where
  src : String
  tgt : String
  weight : Option AttrVal
deriving DecidableEq

/-- An SNN graph as handed to simulation stage 2: nodes with attributes
plus directed edges. -/
structure SimGraph where
  nodes : SnnGraph
  edges : List Edge
deriving DecidableEq

/-- Modelled from the spec: `assert_synaptic_edgeweight_type_is_correct`
(module `src.simulation.verify_graph_is_snn`, absent from the snapshot)
raises a structural error unless the edge carries a correctly typed
numeric `weight`. -/
def assert_synaptic_edgeweight_type_is_correct (e : Edge) : Except String Unit :=
  match e.weight with
  | Option.some (AttrVal.num _) => .ok ()
  | _ => .error ("Error, weight of edge " ++ e.src ++ "->" ++ e.tgt ++ " is missing or mistyped.")

/-- The `for edge in G.edges` loop applying the edge-weight assertion. -/
def check_edge_weights : List Edge → Except String Unit
  | [] => .ok ()
  | e :: rest =>
    match assert_synaptic_edgeweight_type_is_correct e with
    | .error msg => .error msg
    | .ok _ => check_edge_weights rest

/-- Modelled from the spec: `assert_no_duplicate_edges_exist`
(module `src.simulation.verify_graph_is_snn`, absent from the snapshot)
raises a structural error if two edges share the same ordered endpoint
pair. -/
def assert_no_duplicate_edges_exist (G : SimGraph) : Except String Unit :=
  if (G.edges.map (fun e => (e.src, e.tgt))).Nodup then .ok ()
  else .error ("Error, duplicate directed edges exist in the graph.")

/-- Modelled from the spec: `old_graph_to_new_graph_properties`
(module `src.helper`, absent from the snapshot) stores the node
properties in an `nx_LIF` neuron object per node, initialising the
simulation state (`u`, `v`, `spikes`); it neither adds nor removes nodes
and does not touch `bias`/`du`/`dv`/`vth`. -/
def old_graph_to_new_graph_properties (G : SimGraph) : SimGraph :=
  { G with
    nodes := G.nodes.map (fun p =>
      (p.1, { p.2 with u := Option.some 0, v := Option.some 0, spikes := Option.some false })) }

/-- Modelled from the spec: `verify_networkx_snn_spec`
(module `src.simulation.verify_graph_is_snn`, absent from the snapshot)
raises a structural error naming the first node missing one of the
required neuron attributes (`bias`, `du`, `dv`, `vth`) at timestep `t`. -/
def verify_networkx_snn_spec (G : SimGraph) (t : ℕ) : Except String Unit :=
  match G.nodes.find? (fun p =>
      !(p.2.bias.isSome && p.2.du.isSome && p.2.dv.isSome && p.2.vth.isSome)) with
  | Option.some p =>
    .error ("Error, node " ++ p.1 ++ " is missing a required neuron attribute at t=" ++ toString t)
  | Option.none => .ok ()

/-- Modelled from the spec: `add_nx_neurons_to_networkx_graph`
(module `src.simulation.run_on_networkx`, absent from the snapshot)
builds the runnable networkx network from the already-verified graph;
it leaves the graph's nodes and edges unchanged. -/
def add_nx_neurons_to_networkx_graph (G : SimGraph) (_t : ℕ) : SimGraph := G

/-- `convert_graph_snn_to_nx_snn` from `src/simulation/stage2_sim.py`:
edge-weight assertions, duplicate-edge assertion, property conversion,
then the full spec verification at `t=0`, in source order; any failure
raises before the function returns. -/
def convert_graph_snn_to_nx_snn (G : SimGraph) : Except String SimGraph :=
  match check_edge_weights G.edges with
  | .error e => .error e
  | .ok _ =>
    match assert_no_duplicate_edges_exist G with
    | .error e => .error e
    | .ok _ =>
      let G' := old_graph_to_new_graph_properties G
      match verify_networkx_snn_spec G' 0 with
      | .error e => .error e
      | .ok _ => .ok (add_nx_neurons_to_networkx_graph G' 0)

/-- Observable events of simulation stage 2: the structural checks of a
named graph completed (`convert_graph_snn_to_nx_snn` returned), and the
simulation engine (`run_snn_on_networkx`, module
`src.simulation.run_on_networkx`, absent from the snapshot) was invoked
on a named graph. -/
inductive SimEvent where
  | checked (name : String)
  | ran (name : String)
deriving DecidableEq

/-- The `for graph_name, snn_graph in stage_1_graphs.items()` loop of
`sim_graphs` from `src/simulation/stage2_sim.py`, as an event trace:
for each non-input graph it converts (running all structural checks) and
only then invokes the engine; an exception aborts the loop.  Returns the
trace and the raised error, if any. -/
def simLoop : List (String × SimGraph) → List SimEvent × Option String
  | [] => ([], Option.none)
  | (graph_name, snn_graph) :: rest =>
    if graph_name = "input_graph" then
      simLoop rest
    else
      match convert_graph_snn_to_nx_snn snn_graph with
      | .error e => ([SimEvent.checked graph_name], Option.some e)
      | .ok _ =>
        let r := simLoop rest
        (SimEvent.checked graph_name :: SimEvent.ran graph_name :: r.1, r.2)

/-- `sim_graphs` from `src/simulation/stage2_sim.py` (event-trace view). -/
def sim_graphs (stage_1_graphs : List (String × SimGraph)) : List SimEvent × Option String :=
  simLoop stage_1_graphs

/-- `get_networkx_graph_of_2_neurons` from `src/get_graph.py`: two nodes
`0` and `1` with the fixed LIF parameters and the single edge `0->1`
(no `weight` attribute is set on it in the source). -/
def get_networkx_graph_of_2_neurons : SimGraph :=
  { nodes :=
      [("0", { bias := Option.some 1, du := Option.some (1/2), dv := Option.some (1/2),
               vth := Option.some 2 }),
       ("1", { bias := Option.some 2, du := Option.some (5/2), dv := Option.some 3,
               vth := Option.some 10 })],
    edges := [{ src := "0", tgt := "1", weight := Option.none }] }

/-! ## Helper lemmas -/

theorem empty_str_append (s : String) : "" ++ s = s := by
  apply String.ext
  simp [String.data_append]

theorem lookupNode_mem {g : SnnGraph} {name : String} {a : NodeAttrs}
    (h : lookupNode g name = Option.some a) : (name, a) ∈ g := by
  unfold lookupNode at h
  rcases hf : g.find? (fun p => p.1 == name) with _ | p
  · rw [hf] at h; simp at h
  · rw [hf] at h
    simp at h
    have hmem := List.mem_of_find?_eq_some hf
    have hpred := List.find?_some hf
    simp at hpred
    have : p = (name, a) := by
      cases p with
      | mk p1 p2 => simp_all
    rwa [this] at hmem

theorem counter_neuron_died_eval {g : SnnGraph} (hcons : radConsistent g)
    {name : String} {a : NodeAttrs} (ha : lookupNode g name = Option.some a) :
    counter_neuron_died g name = .ok (a.rad_death.getD false) := by
  have hmem : (name, a) ∈ g := lookupNode_mem ha
  cases hcons with
  | inl hall =>
    have hghd : graph_has_dead_neurons g = .ok true := by
      unfold graph_has_dead_neurons
      have hany : g.any (fun p => p.2.rad_death.isSome) = true := by
        rw [List.any_eq_true]
        exact ⟨(name, a), hmem, hall _ hmem⟩
      have halltrue : g.all (fun p => p.2.rad_death.isSome) = true := by
        rw [List.all_eq_true]
        exact fun p hp => hall p hp
      simp [hany, halltrue]
    unfold counter_neuron_died
    rw [hghd]
    simp [ha]
    rcases hrd : a.rad_death with _ | b
    · exact absurd (hall _ hmem) (by simp [hrd])
    · simp
  | inr hnone =>
    have hghd : graph_has_dead_neurons g = .ok false := by
      unfold graph_has_dead_neurons
      have hany : g.any (fun p => p.2.rad_death.isSome) = false := by
        rw [List.any_eq_false]
        intro p hp
        simp [hnone p hp]
      simp [hany]
    unfold counter_neuron_died
    rw [hghd]
    have hrd : a.rad_death = Option.none := hnone _ hmem
    simp [hrd]

theorem countLoop_get {body : ℕ → Except String (String × ℚ)} :
    ∀ {n : ℕ} {l : List (String × ℚ)}, countLoop body n = .ok l →
      l.length = n ∧ ∀ i, i < n → ∀ p, body i = .ok p → l.get? i = Option.some p := by
  intro n
  induction n with
  | zero =>
    intro l h
    unfold countLoop at h
    simp at h
    subst h
    exact ⟨rfl, by omega⟩
  | succ k ih =>
    intro l h
    unfold countLoop at h
    rcases hk : countLoop body k with e | lk <;> rw [hk] at h
    · simp at h
    · rcases hb : body k with e | p <;> rw [hb] at h
      · simp at h
      · simp at h
        subst h
        obtain ⟨hlen, hget⟩ := ih hk
        constructor
        · simp [hlen]
        · intro i hi q hq
          by_cases hik : i < k
          · rw [List.get?_append (by omega : i < lk.length)]
            exact hget i hik q hq
          · have : i = k := by omega
            subst this
            rw [hb] at hq
            simp at hq
            subst hq
            rw [List.get?_append_right (by omega : lk.length ≤ i)]
            simp [hlen]

theorem countLoop_congr {b1 b2 : ℕ → Except String (String × ℚ)}
    (h : ∀ i, b1 i = b2 i) : ∀ n, countLoop b1 n = countLoop b2 n := by
  intro n
  induction n with
  | zero => rfl
  | succ k ih =>
    unfold countLoop
    rw [ih, h k]

/-! ## C2 -/

/-- C2: `graph_has_dead_neurons` raises exactly when `rad_death` is
present on at least one node and absent from at least one node; it
returns `True` when present on every node of a nonempty graph and
`False` when absent from every node. -/
theorem graph_has_dead_neurons_cases (g : SnnGraph) :
    (isErr (graph_has_dead_neurons g) = true ↔
      ((∃ p ∈ g, p.2.rad_death.isSome = true) ∧ (∃ p ∈ g, p.2.rad_death = Option.none)))
    ∧ (g ≠ [] → (∀ p ∈ g, p.2.rad_death.isSome = true) → graph_has_dead_neurons g = .ok true)
    ∧ ((∀ p ∈ g, p.2.rad_death = Option.none) → graph_has_dead_neurons g = .ok false) := by
  refine ⟨?_, ?_, ?_⟩
  · unfold graph_has_dead_neurons isErr
    cases hany : g.any (fun p => p.2.rad_death.isSome) with
    | false =>
      rw [List.any_eq_false] at hany
      simp only [Bool.false_eq_true, if_false]
      constructor
      · intro h; exact absurd h (by simp)
      · rintro ⟨⟨p, hp, hps⟩, _⟩
        exact absurd hps (by simp [hany p hp])
    | true =>
      rw [List.any_eq_true] at hany
      simp only [if_true]
      cases hall : g.all (fun p => p.2.rad_death.isSome) with
      | true =>
        rw [List.all_eq_true] at hall
        simp only [Bool.false_eq_true]
        constructor
        · intro h; exact absurd h (by simp)
        · rintro ⟨_, ⟨p, hp, hpn⟩⟩
          exact absurd (hall p hp) (by simp [hpn])
      | false =>
        rw [List.all_eq_false] at hall
        constructor
        · intro _
          obtain ⟨p, hp, hps⟩ := hany
          obtain ⟨q, hq, hqn⟩ := hall
          exact ⟨⟨p, hp, by simpa using hps⟩, ⟨q, hq, by simpa using hqn⟩⟩
        · intro _; rfl
  · intro hne hall
    unfold graph_has_dead_neurons
    have hanyt : g.any (fun p => p.2.rad_death.isSome) = true := by
      rw [List.any_eq_true]
      rcases g with _ | ⟨p, t⟩
      · exact absurd rfl hne
      · exact ⟨p, List.mem_cons_self p t, hall p (List.mem_cons_self p t)⟩
    have hallt : g.all (fun p => p.2.rad_death.isSome) = true := by
      rw [List.all_eq_true]; exact hall
    simp [hanyt, hallt]
  · intro hnone
    unfold graph_has_dead_neurons
    have hanyf : g.any (fun p => p.2.rad_death.isSome) = false := by
      rw [List.any_eq_false]
      intro p hp
      simp [hnone p hp]
    simp [hanyf]

/-- C2 counterexample: on the empty graph, `rad_death` is (vacuously)
present on every node, yet `graph_has_dead_neurons` returns `False`,
not `True` as the claim states. -/
theorem rad_death_vacuous_empty_graph :
    (∀ p ∈ ([] : SnnGraph), p.2.rad_death.isSome = true) ∧
      graph_has_dead_neurons [] = .ok false ∧
      ¬ graph_has_dead_neurons [] = .ok true := by
  refine ⟨by simp, rfl, ?_⟩
  intro h
  rw [show graph_has_dead_neurons [] = .ok false from rfl] at h
  simp at h

/-- C2 witness: a one-node marked graph yields `True`, a one-node
unmarked graph yields `False`. -/
theorem graph_has_dead_neurons_cases_witness :
    graph_has_dead_neurons [(("a" : String), ({ rad_death := Option.some true } : NodeAttrs))] = .ok true ∧
      graph_has_dead_neurons [(("a" : String), ({} : NodeAttrs))] = .ok false :=
  ⟨(graph_has_dead_neurons_cases _).2.1 (by simp) (by decide),
   (graph_has_dead_neurons_cases _).2.2 (by decide)⟩

/-! ## C10 -/

/-- C10: on a graph where no node carries `rad_death`,
`counter_neuron_died` returns `False` for every neuron name, so the
redundancy-aware readout coincides with the plain readout (the primary
counter neurons are always read, never the `red_`-prefixed backups). -/
theorem no_rad_death_reads_primary (g : SnnGraph)
    (h : ∀ p ∈ g, p.2.rad_death = Option.none) :
    (∀ nm, counter_neuron_died g nm = .ok false) ∧
    ∀ (n : ℕ) (m_val : ℤ), get_nx_LIF_count_with_redundancy n g m_val =
      get_nx_LIF_count_without_redundancy n g m_val := by
  have hghd : graph_has_dead_neurons g = .ok false := by
    unfold graph_has_dead_neurons
    have hanyf : g.any (fun p => p.2.rad_death.isSome) = false := by
      rw [List.any_eq_false]
      intro p hp
      simp [h p hp]
    simp [hanyf]
  have hcnd : ∀ nm, counter_neuron_died g nm = .ok false := by
    intro nm
    unfold counter_neuron_died
    rw [hghd]
    simp
  refine ⟨hcnd, ?_⟩
  intro n m_val
  unfold get_nx_LIF_count_with_redundancy get_nx_LIF_count_without_redundancy
  apply countLoop_congr
  intro i
  unfold readout_one_red readout_one_plain
  rw [hcnd (counterName i m_val)]
  simp [empty_str_append]

/-- C10 witness: a concrete unmarked graph. -/
theorem no_rad_death_reads_primary_witness :
    counter_neuron_died [(("counter_0_0" : String), ({ u := Option.some 5 } : NodeAttrs))] ("counter_0_0") = .ok false ∧
      get_nx_LIF_count_with_redundancy 1 [(("counter_0_0" : String), ({ u := Option.some 5 } : NodeAttrs))] 0 =
        get_nx_LIF_count_without_redundancy 1 [(("counter_0_0" : String), ({ u := Option.some 5 } : NodeAttrs))] 0 :=
  ⟨(no_rad_death_reads_primary _ (by decide)).1 _,
   (no_rad_death_reads_primary _ (by decide)).2 1 0⟩

/-! ## C1 -/

/-- C1: on a graph satisfying the graph-wide `rad_death` consistency
invariant, the redundancy-aware readout reports the primary counter
neuron's final current `u` when its `rad_death` is false or absent, and
the `red_`-prefixed twin's final current when it is true; the entries of
`get_nx_LIF_count_with_redundancy` are exactly these per-index readouts. -/
theorem readout_fallback_selects_redundant (g : SnnGraph) (m_val : ℤ) (i : ℕ)
    (a : NodeAttrs) (hcons : radConsistent g)
    (ha : lookupNode g (counterName i m_val) = Option.some a) :
    (a.rad_death ≠ Option.some true →
      ∀ q, readCount g (counterName i m_val) = .ok q →
        readout_one_red g m_val i = .ok (counterName i m_val, q))
    ∧ (a.rad_death = Option.some true →
      ∀ q, readCount g ("red_" ++ counterName i m_val) = .ok q →
        readout_one_red g m_val i = .ok (counterName i m_val, q))
    ∧ (∀ n counts, get_nx_LIF_count_with_redundancy n g m_val = .ok counts →
        i < n → ∀ p, readout_one_red g m_val i = .ok p →
          counts.get? i = Option.some p) := by
  have hc := counter_neuron_died_eval hcons ha
  refine ⟨?_, ?_, ?_⟩
  · intro hne q hq
    unfold readout_one_red
    rw [hc]
    have hd : a.rad_death.getD false = false := by
      rcases hrd : a.rad_death with _ | b
      · rfl
      · cases b
        · rfl
        · exact absurd hrd hne
    rw [hd]
    simp [empty_str_append, hq]
  · intro htrue q hq
    unfold readout_one_red
    rw [hc, htrue]
    simp [hq]
  · intro n counts hok hi p hp
    exact (countLoop_get hok).2 i hi p hp

/-- C1 witness: `counter_2_3` has `rad_death=True` and the redundant
twin `red_counter_2_3` holds final current 7; the readout for node 2 at
iteration 3 reports 7. -/
theorem readout_fallback_witness :
    readout_one_red
      [(("counter_2_3" : String), ({ u := Option.some 0, rad_death := Option.some true } : NodeAttrs)),
       (("red_counter_2_3" : String), ({ u := Option.some 7, rad_death := Option.some false } : NodeAttrs))]
      3 2 = .ok (counterName 2 3, 7) :=
  (readout_fallback_selects_redundant _ 3 2
      ({ u := Option.some 0, rad_death := Option.some true })
      (by decide) (by decide)).2.1 rfl 7 (by rfl)

/-! ## C4 -/

theorem lookupD_mem {l : List (String × ℚ)} {k : String} {v : ℚ}
    (h : lookupD l k = Option.some v) : (k, v) ∈ l := by
  unfold lookupD at h
  rcases hf : l.find? (fun p => p.1 == k) with _ | p
  · rw [hf] at h; simp at h
  · rw [hf] at h
    simp at h
    have hmem := List.mem_of_find?_eq_some hf
    have hpred := List.find?_some hf
    simp at hpred
    have : p = (k, v) := by
      cases p with
      | mk p1 p2 => simp_all
    rwa [this] at hmem

theorem mem_lookupD : ∀ {l : List (String × ℚ)}, (l.map Prod.fst).Nodup →
    ∀ {k : String} {v : ℚ}, (k, v) ∈ l → lookupD l k = Option.some v := by
  intro l
  induction l with
  | nil => intro _ k v hm; simp at hm
  | cons p t ih =>
    intro hnd k v hm
    rw [List.map_cons, List.nodup_cons] at hnd
    rcases List.mem_cons.mp hm with rfl | hmt
    · unfold lookupD
      simp [List.find?]
    · have hne : (p.1 == k) = false := by
        rw [beq_eq_false_iff_ne]
        intro hbeq
        apply hnd.1
        rw [hbeq]
        exact List.mem_map.mpr ⟨(k, v), hmt, rfl⟩
      have htail := ih hnd.2 hmt
      unfold lookupD at htail ⊢
      simp only [List.find?, hne]
      exact htail

theorem dictBeq_iff {a b : List (String × ℚ)}
    (ha : (a.map Prod.fst).Nodup) (hb : (b.map Prod.fst).Nodup) :
    dictBeq a b = true ↔ ∀ k, lookupD a k = lookupD b k := by
  unfold dictBeq
  rw [Bool.and_eq_true, List.all_eq_true, List.all_eq_true]
  constructor
  · rintro ⟨h1, h2⟩ k
    rcases hak : lookupD a k with _ | v
    · rcases hbk : lookupD b k with _ | w
      · rfl
      · have hmem := lookupD_mem hbk
        have := h2 (k, w) hmem
        simp at this
        rw [hak] at this
        simp at this
    · have hmem := lookupD_mem hak
      have hb1 := h1 (k, v) hmem
      simp at hb1
      rw [hb1]
  · intro h
    constructor
    · intro p hp
      have : lookupD a p.1 = Option.some p.2 := by
        apply mem_lookupD ha
        cases p with
        | mk p1 p2 => exact hp
      simp [← h p.1, this]
    · intro p hp
      have : lookupD b p.1 = Option.some p.2 := by
        apply mem_lookupD hb
        cases p with
        | mk p1 p2 => exact hp
      simp [h p.1, this]

/-- C4: `get_snn_results` sets the `passed` entry of the returned
mapping to `True` if and only if the SNN-derived count mapping exactly
equals the Alipour reference mapping: the same key set with an equal
count at every key. -/
theorem snn_results_passed_iff_equal (alipour_counter_marks : List (String × ℚ))
    (n : ℕ) (m_val : ℤ) (redundant : Bool) (g : SnnGraph) (r : SnnResult)
    (hok : get_snn_results alipour_counter_marks n m_val redundant g = .ok r)
    (ha : (alipour_counter_marks.map Prod.fst).Nodup)
    (hc : (r.counts.map Prod.fst).Nodup) :
    r.passed = true ↔ ∀ k, lookupD alipour_counter_marks k = lookupD r.counts k := by
  unfold get_snn_results at hok
  rcases hread : (if redundant then get_nx_LIF_count_with_redundancy n g m_val
      else get_nx_LIF_count_without_redundancy n g m_val) with e | marks <;>
    rw [hread] at hok
  · simp at hok
  · simp at hok
    have hcounts : r.counts = marks := by rw [← hok]
    have hpassed : r.passed = dictBeq alipour_counter_marks marks := by rw [← hok]
    rw [hpassed, hcounts]
    exact dictBeq_iff ha (by rwa [hcounts] at hc)

/-- C4 witness: a one-node graph whose counter current equals the
reference count; the comparison passes. -/
theorem snn_results_passed_iff_equal_witness :
    get_snn_results [(("counter_0_0" : String), (4 : ℚ))] 1 0 false
        [(("counter_0_0" : String), ({ u := Option.some 4 } : NodeAttrs))]
      = .ok (SnnResult.mk [(("counter_0_0" : String), (4 : ℚ))] true) ∧
    (SnnResult.mk [(("counter_0_0" : String), (4 : ℚ))] true).passed = true :=
  ⟨by rfl,
   (snn_results_passed_iff_equal [(("counter_0_0" : String), (4 : ℚ))] 1 0 false
      [(("counter_0_0" : String), ({ u := Option.some 4 } : NodeAttrs))]
      (SnnResult.mk [(("counter_0_0" : String), (4 : ℚ))] true)
      (by rfl) (by decide) (by decide)).mpr (fun k => rfl)⟩

/-! ## C3 -/

/-- C3 counterexample: redundancy level 1/2 lies in the interval (0, 1]
yet `get_redundant_graph` rejects it, so the transform does not accept
every level in (0, 1]. -/
theorem redundancy_half_level_rejected :
    (0 < (1/2 : ℚ) ∧ (1/2 : ℚ) ≤ 1) ∧
      isErr (get_redundant_graph id [] (1/2)) = true := by
  refine ⟨⟨by norm_num, by norm_num⟩, ?_⟩
  unfold get_redundant_graph
  rw [if_neg (by norm_num : ¬(1/2 : ℚ) = 0), if_neg (by norm_num : ¬(1/2 : ℚ) = 1)]
  rfl

/-- C3 (amended): `get_redundant_graph` rejects level 0, rejects every
level other than 0 and 1 (such as 0.5 and 1.5), and at level 1 succeeds
on a deep copy, leaving the caller's graph unmodified. -/
theorem redundancy_level_boundaries (adapt : SnnGraph → SnnGraph) (g : SnnGraph)
    (red_lev : ℚ) :
    (red_lev = 0 → isErr (get_redundant_graph adapt g red_lev) = true)
    ∧ (red_lev ≠ 0 → red_lev ≠ 1 → isErr (get_redundant_graph adapt g red_lev) = true)
    ∧ get_redundant_graph adapt g 1 = .ok (adapt (deepcopy g), g) := by
  refine ⟨?_, ?_, ?_⟩
  · intro h
    subst h
    unfold get_redundant_graph
    rw [if_pos rfl]
    rfl
  · intro h0 h1
    unfold get_redundant_graph
    rw [if_neg h0, if_neg h1]
    rfl
  · unfold get_redundant_graph
    rw [if_neg (by norm_num : ¬(1 : ℚ) = 0), if_pos rfl]

/-- C3 witness: level 3/2 is rejected, level 1 succeeds and returns the
caller's graph unchanged alongside the adapted copy. -/
theorem redundancy_level_boundaries_witness :
    isErr (get_redundant_graph id [] (3/2)) = true ∧
      get_redundant_graph id [] 1 = .ok (id (deepcopy []), []) :=
  ⟨(redundancy_level_boundaries id [] (3/2)).2.1 (by norm_num) (by norm_num),
   (redundancy_level_boundaries id [] 1).2.2⟩

/-! ## C8 -/

/-- C8: when the adaptation dict contains the key `"redundancy"` with a
value that is not a Python float, `get_adapted_graph` raises (the
Python int 1 is such a value); with the float 1.0 it succeeds. -/
theorem adaptation_setting_requires_float (adapt : SnnGraph → SnnGraph) (g : SnnGraph)
    (adaptation : List (Option String × PySetting))
    (hnd : (adaptation.map Prod.fst).Nodup) :
    (∀ s, (Option.some "redundancy", s) ∈ adaptation →
      (∀ q : ℚ, s ≠ PySetting.pyFloat q) →
        isErr (get_adapted_graph adapt g adaptation) = true)
    ∧ (∀ rest, adaptation = (Option.some "redundancy", PySetting.pyFloat 1) :: rest →
        get_adapted_graph adapt g adaptation = .ok (Option.some (adapt (deepcopy g), g))) := by
  constructor
  · intro s hmem hnf
    rcases adaptation with _ | ⟨⟨nm, st⟩, t⟩
    · simp at hmem
    · simp only [get_adapted_graph]
      by_cases hn : nm = Option.none
      · rw [if_pos hn]
        rfl
      · rw [if_neg hn]
        by_cases hr : nm = Option.some "redundancy"
        · rw [if_pos hr]
          rcases List.mem_cons.mp hmem with hhd | htl
          · have hst : st = s := by
              have := congrArg Prod.snd hhd.symm
              simpa using this
            subst hst
            rcases st with q | i | b | _ | str
            · exact absurd rfl (hnf q)
            · rfl
            · rfl
            · rfl
            · rfl
          · exfalso
            rw [List.map_cons, List.nodup_cons] at hnd
            apply hnd.1
            rw [show (⟨nm, st⟩ : Option String × PySetting).1 = Option.some "redundancy" from hr]
            exact List.mem_map.mpr ⟨_, htl, rfl⟩
        · rw [if_neg hr]
          rfl
  · intro rest heq
    subst heq
    simp only [get_adapted_graph]
    rw [if_neg (by simp : ¬(Option.some "redundancy" : Option String) = Option.none),
      if_pos trivial]
    unfold get_redundant_graph
    rw [if_neg (by norm_num : ¬(1 : ℚ) = 0), if_pos rfl]

/-- C8 witness: the Python int 1 is rejected, the float 1.0 accepted. -/
theorem adaptation_setting_requires_float_witness :
    isErr (get_adapted_graph id [] [(Option.some "redundancy", PySetting.pyInt 1)]) = true ∧
      get_adapted_graph id [] [(Option.some "redundancy", PySetting.pyFloat 1)]
        = .ok (Option.some (id (deepcopy []), [])) :=
  ⟨(adaptation_setting_requires_float id [] _ (by decide)).1 (PySetting.pyInt 1)
      (by decide) (fun q h => PySetting.noConfusion h),
   (adaptation_setting_requires_float id [] _ (by decide)).2 [] rfl⟩

/-! ## C6 -/

theorem algoLoop_mem_err {G : Type} (specify : ℤ → G) :
    ∀ (l : List (String × PySetting)) (p : String × PySetting), p ∈ l →
      (∀ acc, isErr (algoStep specify acc p) = true) →
      ∀ acc, isErr (algoLoop specify acc l) = true := by
  intro l
  induction l with
  | nil => intro p hp; simp at hp
  | cons q t ih =>
    intro p hp hstep acc
    unfold algoLoop
    cases hq : algoStep specify acc q with
    | error e => rfl
    | ok acc' =>
      rcases List.mem_cons.mp hp with rfl | hpt
      · have := hstep acc
        rw [hq] at this
        simp [isErr] at this
      · exact ih p hpt hstep acc'

/-- C6: `get_snn_algo_graph` raises a configuration error when the MDSA
`m_val` is not a Python integer, when any requested algorithm name
differs from `"MDSA"` (hence whenever more than one algorithm is
requested, since dict keys are distinct), and compiles via `specify`
without raising when the single requested algorithm is MDSA with an
integer `m_val`. -/
theorem algo_graph_config_errors {G : Type} (specify : ℤ → G)
    (algorithm : List (String × PySetting))
    (hnd : (algorithm.map Prod.fst).Nodup) :
    (∀ s, (("MDSA" : String), s) ∈ algorithm →
      (∀ n : ℤ, s ≠ PySetting.pyInt n) → (∀ b, s ≠ PySetting.pyBool b) →
        isErr (get_snn_algo_graph specify algorithm) = true)
    ∧ (∀ p ∈ algorithm, p.1 ≠ "MDSA" →
        isErr (get_snn_algo_graph specify algorithm) = true)
    ∧ (1 < algorithm.length → isErr (get_snn_algo_graph specify algorithm) = true)
    ∧ (∀ mv : ℤ, algorithm = [(("MDSA" : String), PySetting.pyInt mv)] →
        get_snn_algo_graph specify algorithm = .ok (specify mv)) := by
  have herr : isErr (algoLoop specify Option.none algorithm) = true →
      isErr (get_snn_algo_graph specify algorithm) = true := by
    intro h
    unfold get_snn_algo_graph
    rcases hl : algoLoop specify Option.none algorithm with e | acc
    · rfl
    · rw [hl] at h
      simp [isErr] at h
  have key2 : ∀ p ∈ algorithm, p.1 ≠ "MDSA" →
      isErr (get_snn_algo_graph specify algorithm) = true := by
    intro p hp hpne
    apply herr
    apply algoLoop_mem_err specify algorithm p hp
    intro acc
    unfold algoStep
    rw [if_neg hpne]
    rfl
  refine ⟨?_, key2, ?_, ?_⟩
  · intro s hmem hni hnb
    apply herr
    apply algoLoop_mem_err specify algorithm _ hmem
    intro acc
    unfold algoStep
    rw [if_pos rfl]
    rcases s with q | i | b | _ | str
    · rfl
    · exact absurd rfl (hni i)
    · exact absurd rfl (hnb b)
    · rfl
    · rfl
  · intro hlen
    rcases algorithm with _ | ⟨p1, _ | ⟨p2, t⟩⟩
    · simp at hlen
    · simp at hlen
    · rw [List.map_cons, List.map_cons, List.nodup_cons] at hnd
      have hne12 : p1.1 ≠ p2.1 := by
        intro he
        apply hnd.1
        rw [he]
        exact List.mem_cons_self _ _
      by_cases h1 : p1.1 = "MDSA"
      · exact key2 p2 (List.mem_cons_of_mem _ (List.mem_cons_self _ _))
          (fun he => hne12 (h1.trans he.symm))
      · exact key2 p1 (List.mem_cons_self _ _) h1
  · intro mv heq
    subst heq
    unfold get_snn_algo_graph algoLoop algoStep
    rw [if_pos rfl]
    rfl

/-- C6 witness: a non-integer `m_val` is rejected; the single MDSA
request with integer `m_val` 3 compiles. -/
theorem algo_graph_config_errors_witness :
    isErr (get_snn_algo_graph (fun m : ℤ => m)
        [(("MDSA" : String), PySetting.pyStr "x")]) = true ∧
      get_snn_algo_graph (fun m : ℤ => m)
        [(("MDSA" : String), PySetting.pyInt 3)] = .ok 3 :=
  ⟨(algo_graph_config_errors _ _ (by decide)).1 (PySetting.pyStr "x") (by decide)
      (fun n h => PySetting.noConfusion h) (fun b h => PySetting.noConfusion h),
   (algo_graph_config_errors _ _ (by decide)).2.2.2 3 rfl⟩

/-! ## C9 -/

theorem updateLatest_single (latest : Option SnnGraph) (g : SnnGraph) :
    updateLatest latest (GVal.single g) = .ok latest := rfl

theorem updateLatest_glist {gs : List SnnGraph} {g0 : SnnGraph}
    (h : gs.getLast? = Option.some g0) (latest : Option SnnGraph) :
    updateLatest latest (GVal.glist gs) = .ok (Option.some g0) := by
  simp only [updateLatest]
  rw [h]

theorem mdsaLoop_cons_skip (al : List (String × ℚ)) (n : ℕ) (m_val : ℤ)
    (latest : Option SnnGraph) (results : List (String × SnnResult))
    {name : String} {gv : GVal} {latest' : Option SnnGraph}
    (h1 : updateLatest latest gv = .ok latest')
    (h2 : resultKey name = Option.none) (rest : List (String × GVal)) :
    mdsaLoop al n m_val latest results ((name, gv) :: rest)
      = mdsaLoop al n m_val latest' results rest := by
  conv_lhs => unfold mdsaLoop
  simp only [h1, h2]

theorem mdsaLoop_cons_unbound (al : List (String × ℚ)) (n : ℕ) (m_val : ℤ)
    (results : List (String × SnnResult))
    {name : String} {gv : GVal} {latest : Option SnnGraph} {rk : String} {red : Bool}
    (h1 : updateLatest latest gv = .ok Option.none)
    (h2 : resultKey name = Option.some (rk, red)) (rest : List (String × GVal)) :
    mdsaLoop al n m_val latest results ((name, gv) :: rest)
      = .error ("NameError: name latest_snn_graph is not defined") := by
  conv_lhs => unfold mdsaLoop
  simp only [h1, h2]

theorem mdsaLoop_cons_read (al : List (String × ℚ)) (n : ℕ) (m_val : ℤ)
    (results : List (String × SnnResult))
    {name : String} {gv : GVal} {latest : Option SnnGraph} {g : SnnGraph}
    {rk : String} {red : Bool} {r : SnnResult}
    (h1 : updateLatest latest gv = .ok (Option.some g))
    (h2 : resultKey name = Option.some (rk, red))
    (h3 : get_snn_results al n m_val red g = .ok r) (rest : List (String × GVal)) :
    mdsaLoop al n m_val latest results ((name, gv) :: rest)
      = mdsaLoop al n m_val (Option.some g) (results ++ [(rk, r)]) rest := by
  conv_lhs => unfold mdsaLoop
  simp only [h1, h2, h3]

theorem mdsaLoop_prefix (al : List (String × ℚ)) (n : ℕ) (m_val : ℤ) :
    ∀ (l : List (String × GVal)) (latest : Option SnnGraph)
      (results res : List (String × SnnResult)),
      mdsaLoop al n m_val latest results l = .ok res → ∃ t, res = results ++ t := by
  intro l
  induction l with
  | nil =>
    intro latest results res h
    unfold mdsaLoop at h
    simp at h
    exact ⟨[], by simp [h]⟩
  | cons p t ih =>
    intro latest results res h
    obtain ⟨name, gv⟩ := p
    unfold mdsaLoop at h
    split at h
    · simp at h
    · split at h
      · exact ih _ _ _ h
      · split at h
        · simp at h
        · split at h
          · simp at h
          · obtain ⟨u, hu⟩ := ih _ _ _ h
            rw [List.append_assoc] at hu
            exact ⟨_, hu⟩

/-- C9: `get_mdsa_snn_results` binds `latest_snn_graph` only when a dict
value is a list; when the entry after `"input_graph"` names one of the
four result graphs but holds a single (non-list) graph, the readout of
that entry raises `NameError` if no list value was iterated before it,
and otherwise silently reads the last graph of the previously iterated
list value instead of the named entry's own graph. -/
theorem mdsa_latest_binding (al : List (String × ℚ)) (n : ℕ) (m_val : ℤ)
    (iv : GVal) (nm : String) (g : SnnGraph) (rest : List (String × GVal))
    (rk : String) (red : Bool) (hrk : resultKey nm = Option.some (rk, red)) :
    (∀ g0, iv = GVal.single g0 →
      get_mdsa_snn_results al n m_val (("input_graph", iv) :: (nm, GVal.single g) :: rest)
        = .error ("NameError: name latest_snn_graph is not defined"))
    ∧ (∀ gs g0, iv = GVal.glist gs → gs.getLast? = Option.some g0 →
      ∀ res, get_mdsa_snn_results al n m_val
          (("input_graph", iv) :: (nm, GVal.single g) :: rest) = .ok res →
        ∃ r, res.head? = Option.some (rk, r) ∧ get_snn_results al n m_val red g0 = .ok r) := by
  have hik : resultKey ("input_graph" : String) = Option.none := rfl
  constructor
  · intro g0 hiv
    subst hiv
    unfold get_mdsa_snn_results
    rw [mdsaLoop_cons_skip al n m_val Option.none [] (updateLatest_single _ _) hik]
    rw [mdsaLoop_cons_unbound al n m_val [] (updateLatest_single _ _) hrk]
  · intro gs g0 hiv hlast res hok
    subst hiv
    unfold get_mdsa_snn_results at hok
    rw [mdsaLoop_cons_skip al n m_val Option.none [] (updateLatest_glist hlast _) hik] at hok
    rcases hres : get_snn_results al n m_val red g0 with e | r
    · rw [show mdsaLoop al n m_val (Option.some g0) [] ((nm, GVal.single g) :: rest)
          = .error e from by
            unfold mdsaLoop
            simp only [updateLatest_single, hrk, hres]] at hok
      simp at hok
    · rw [mdsaLoop_cons_read al n m_val [] (updateLatest_single _ _) hrk hres] at hok
      obtain ⟨t, ht⟩ := mdsaLoop_prefix al n m_val rest _ _ _ hok
      refine ⟨r, ?_, rfl⟩
      rw [ht]
      rfl

/-- C9 witness: the input entry and the `snn_algo_graph` entry are both
single graphs; the readout raises `NameError`. -/
theorem mdsa_latest_binding_witness :
    get_mdsa_snn_results [] 0 0
        [(("input_graph" : String), GVal.single []), (("snn_algo_graph" : String), GVal.single [])]
      = .error ("NameError: name latest_snn_graph is not defined") :=
  (mdsa_latest_binding [] 0 0 (GVal.single []) ("snn_algo_graph") [] []
    ("snn_algo_result") false rfl).1 [] rfl

/-! ## C5 -/

theorem simLoop_fail_no_run :
    ∀ (l : List (String × SimGraph)), (l.map Prod.fst).Nodup →
      ∀ (name : String) (g : SimGraph), (name, g) ∈ l → name ≠ "input_graph" →
        isErr (convert_graph_snn_to_nx_snn g) = true →
        (simLoop l).2.isSome = true ∧ SimEvent.ran name ∉ (simLoop l).1 := by
  intro l
  induction l with
  | nil =>
    intro _ name g hmem
    simp at hmem
  | cons hd t ih =>
    obtain ⟨nm0, g0⟩ := hd
    intro hnd name g hmem hni hfail
    rw [List.map_cons, List.nodup_cons] at hnd
    unfold simLoop
    by_cases h0 : nm0 = "input_graph"
    · rw [if_pos h0]
      rcases List.mem_cons.mp hmem with heq | hmt
      · have : name = nm0 := congrArg Prod.fst heq
        exact absurd (this.trans h0) hni
      · exact ih hnd.2 name g hmt hni hfail
    · rw [if_neg h0]
      cases hc : convert_graph_snn_to_nx_snn g0 with
      | error e =>
        refine ⟨rfl, ?_⟩
        intro hr
        simp at hr
      | ok G2 =>
        rcases List.mem_cons.mp hmem with heq | hmt
        · have hg : g = g0 := congrArg Prod.snd heq
          rw [hg, hc] at hfail
          simp [isErr] at hfail
        · obtain ⟨hsome, hnotin⟩ := ih hnd.2 name g hmt hni hfail
          refine ⟨hsome, ?_⟩
          intro hr
          rcases List.mem_cons.mp hr with hr1 | hr2
          · simp at hr1
          · rcases List.mem_cons.mp hr2 with hr3 | hr4
            · have : name = nm0 := by
                injection hr3
              apply hnd.1
              rw [← this]
              exact List.mem_map.mpr ⟨(name, g), hmt, rfl⟩
            · exact hnotin hr4

theorem simLoop_ran_implies_checked_ok :
    ∀ (l : List (String × SimGraph)) (nm : String),
      SimEvent.ran nm ∈ (simLoop l).1 →
        ∃ g, (nm, g) ∈ l ∧ isErr (convert_graph_snn_to_nx_snn g) = false := by
  intro l
  induction l with
  | nil =>
    intro nm h
    simp [simLoop] at h
  | cons hd t ih =>
    obtain ⟨nm0, g0⟩ := hd
    intro nm h
    unfold simLoop at h
    by_cases h0 : nm0 = "input_graph"
    · rw [if_pos h0] at h
      obtain ⟨g, hg, hok⟩ := ih nm h
      exact ⟨g, List.mem_cons_of_mem _ hg, hok⟩
    · rw [if_neg h0] at h
      cases hc : convert_graph_snn_to_nx_snn g0 with
      | error e =>
        rw [hc] at h
        simp at h
      | ok G2 =>
        rw [hc] at h
        rcases List.mem_cons.mp h with h1 | h2
        · simp at h1
        · rcases List.mem_cons.mp h2 with h3 | h4
          · have : nm = nm0 := by injection h3
            refine ⟨g0, ?_, ?_⟩
            · rw [this]
              exact List.mem_cons_self _ _
            · rw [hc]
              rfl
          · obtain ⟨g, hg, hok⟩ := ih nm h4
            exact ⟨g, List.mem_cons_of_mem _ hg, hok⟩

/-- C5: in simulation stage 2 the structural checks of
`convert_graph_snn_to_nx_snn` (edge-weight typing, duplicate-edge check,
full neuron-attribute verification at t=0) gate the engine: a non-input
graph failing them makes `sim_graphs` raise, and the engine is never run
on it; moreover the engine only ever runs on graphs whose checks
succeeded. -/
theorem checks_precede_engine (stage_1_graphs : List (String × SimGraph))
    (hnd : (stage_1_graphs.map Prod.fst).Nodup)
    (name : String) (g : SimGraph)
    (hmem : (name, g) ∈ stage_1_graphs) (hni : name ≠ "input_graph")
    (hfail : isErr (convert_graph_snn_to_nx_snn g) = true) :
    ((sim_graphs stage_1_graphs).2.isSome = true
      ∧ SimEvent.ran name ∉ (sim_graphs stage_1_graphs).1)
    ∧ ∀ nm, SimEvent.ran nm ∈ (sim_graphs stage_1_graphs).1 →
        ∃ g2, (nm, g2) ∈ stage_1_graphs ∧
          isErr (convert_graph_snn_to_nx_snn g2) = false :=
  ⟨simLoop_fail_no_run stage_1_graphs hnd name g hmem hni hfail,
   fun nm h => simLoop_ran_implies_checked_ok stage_1_graphs nm h⟩

/-- C5 witness: a graph whose only node is missing `vth` makes stage 2
raise before the engine runs on it. -/
theorem checks_precede_engine_witness :
    (sim_graphs
        [(("input_graph" : String), ({ nodes := [], edges := [] } : SimGraph)),
         (("snn_algo_graph" : String),
          ({ nodes := [(("n0" : String),
              ({ bias := Option.some 1, du := Option.some 1,
                 dv := Option.some 1 } : NodeAttrs))],
             edges := [] } : SimGraph))]).2.isSome = true
    ∧ SimEvent.ran ("snn_algo_graph") ∉
        (sim_graphs
          [(("input_graph" : String), ({ nodes := [], edges := [] } : SimGraph)),
           (("snn_algo_graph" : String),
            ({ nodes := [(("n0" : String),
                ({ bias := Option.some 1, du := Option.some 1,
                   dv := Option.some 1 } : NodeAttrs))],
               edges := [] } : SimGraph))]).1 :=
  (checks_precede_engine _ (by decide) ("snn_algo_graph")
    ({ nodes := [(("n0" : String),
        ({ bias := Option.some 1, du := Option.some 1,
           dv := Option.some 1 } : NodeAttrs))],
       edges := [] } : SimGraph)
    (by decide) (by decide) (by rfl)).1

/-! ## C7 -/

theorem counterName_length (i : ℕ) (m_val : ℤ) : 9 ≤ (counterName i m_val).length := by
  unfold counterName
  rw [String.length_append, String.length_append, String.length_append]
  have h1 : ("counter_" : String).length = 8 := rfl
  have h2 : ("_" : String).length = 1 := rfl
  rw [h1, h2]
  omega

theorem counterName_ne_short {i : ℕ} {m_val : ℤ} {s : String}
    (h : s.length < 9) : counterName i m_val ≠ s := by
  intro he
  have := counterName_length i m_val
  rw [he] at this
  omega

theorem countLoop_err0 {body : ℕ → Except String (String × ℚ)}
    (h : isErr (body 0) = true) : ∀ n, 0 < n → isErr (countLoop body n) = true := by
  intro n
  induction n with
  | zero => intro hc; omega
  | succ k ih =>
    intro _
    unfold countLoop
    by_cases hk : 0 < k
    · have hik := ih hk
      rcases hck : countLoop body k with e | l
      · rfl
      · rw [hck] at hik
        simp [isErr] at hik
    · have hk0 : k = 0 := by omega
      subst hk0
      rcases hb : body 0 with e | p
      · rfl
      · rw [hb] at h
        simp [isErr] at h

/-- C7 (corrected): for every `m_val`, every reference mapping and every
node attribute state (hence after any simulation of the two neurons),
`get_snn_results` on the two-node example graph raises a `KeyError`
instead of producing a verdict, because that graph has nodes `0` and `1`
but no `counter_{i}_{m_val}` neuron. -/
theorem two_neuron_graph_no_counter_readout (al : List (String × ℚ)) (m_val : ℤ)
    (a b : NodeAttrs) :
    isErr (get_snn_results al 2 m_val false
      [(("0" : String), a), (("1" : String), b)]) = true := by
  have h0 : counterName 0 m_val ≠ "0" := counterName_ne_short (by decide)
  have h1 : counterName 0 m_val ≠ "1" := counterName_ne_short (by decide)
  have hrc : isErr (readout_one_plain [(("0" : String), a), (("1" : String), b)] m_val 0) = true := by
    unfold readout_one_plain readCount lookupNode
    have hf : List.find? (fun p => p.1 == counterName 0 m_val)
        [(("0" : String), a), (("1" : String), b)] = Option.none := by
      rw [List.find?_eq_none]
      intro x hx
      rcases List.mem_cons.mp hx with rfl | hx2
      · simp [beq_iff_eq]
        exact Ne.symm h0
      · rcases List.mem_cons.mp hx2 with rfl | hx3
        · simp [beq_iff_eq]
          exact Ne.symm h1
        · simp at hx3
    rw [hf]
    rfl
  have hloop : isErr (get_nx_LIF_count_without_redundancy 2
      [(("0" : String), a), (("1" : String), b)] m_val) = true :=
    countLoop_err0 hrc 2 (by omega)
  unfold get_snn_results
  rcases hr : get_nx_LIF_count_without_redundancy 2
      [(("0" : String), a), (("1" : String), b)] m_val with e | marks
  · simp [hr, isErr]
  · rw [hr] at hloop
    simp [isErr] at hloop

/-- C7 counterexample: the concrete two-node example graph of
`get_graph.py` has no counter neurons, so the comparison against any
reference mapping raises `KeyError: counter_0_1` (for `m_val = 1`)
rather than yielding `passed=True`. -/
theorem two_neuron_graph_readout_fails :
    get_networkx_graph_of_2_neurons.nodes.map Prod.fst = ["0", "1"]
    ∧ get_snn_results [] 2 1 false get_networkx_graph_of_2_neurons.nodes
        = .error ("KeyError: counter_0_1") :=
  ⟨rfl, rfl⟩
